import Mathlib

/-!
Shallow embedding of the surgical rectification pipeline of
`src/rectification_system.py` (functions `_split_sentences`,
`_best_source_candidates`, `_numeric_rule_replace`, `_minimal_edit_valid`,
`_build_surgical_prompt`, `call_llm_surgical`, `surgical_rectify`)
together with the pieces of the Python standard library and third-party
libraries that those functions rely on:

* `re` matching for the two fixed patterns `NUMERIC_RE` and `YEAR_RE`
  (specialised backtracking matchers, one per pattern);
* `str.strip`, `str.replace(a, b, 1)`, `re.split` for the sentence splitter;
* `difflib.SequenceMatcher(None, a, b).ratio()` (matching-blocks algorithm,
  including the autojunk popularity purge for strings of length at least 200);
* `rapidfuzz.process.extract` with `scorer=fuzz.ratio` (indel similarity,
  expressed through the longest common subsequence).

Strings are modelled as their lists of characters (Lean `String` wraps
`List Char`).  Word characters are modelled for the ASCII range
(letters, digits, underscore); all inputs considered in the theorems and
in the repository data are ASCII.  Similarity scores are modelled as
exact rationals; the Python floats only ever compare these quantities
against the constants 0.4 and 0.75, and no input considered here lands on
a floating-point boundary anomaly.  The external completion service is
modelled as an oracle `Nat -> String -> Option String` giving, for each
issued request (numbered in issue order) and its prompt, either the text
of a successful response or `none` for a transport/timeout/non-2xx
failure — `call_llm_surgical` catches such failures and returns `""`.
-/

/-- Python `\s` (whitespace) for `str.strip` and `re.split`: ASCII whitespace
plus the Unicode whitespace code points recognised by Python. -/
def pyIsSpace (c : Char) : Bool :=
  c == ' ' || c == '\t' || c == '\n' || c == '\x0b' || c == '\x0c' || c == '\r' ||
  c == '\x1c' || c == '\x1d' || c == '\x1e' || c == '\x1f' ||
  c == '\x85' || c == '\xa0' || c == ' ' ||
  c == ' ' || c == ' ' || c == ' ' || c == ' ' ||
  c == ' ' || c == ' ' || c == ' ' || c == ' ' ||
  c == ' ' || c == ' ' || c == ' ' ||
  c == ' ' || c == ' ' || c == ' ' || c == ' ' || c == '　'

/-- Python `\w` (word character), ASCII fragment: letters, digits, underscore. -/
def pyWordChar (c : Char) : Bool :=
  c.isAlphanum || c == '_'

/-- Python `str.strip()`: drop leading and trailing whitespace. -/
def pyStrip (s : String) : String :=
  String.mk (((s.data.dropWhile pyIsSpace).reverse.dropWhile pyIsSpace).reverse)

/-- Number of leading decimal digits of a character list (`\d*`, greedy). -/
def digitsCount : List Char → Nat
  | c :: cs => if c.isDigit then digitsCount cs + 1 else 0
  | [] => 0

/-- Number of leading whitespace characters (`\s*`, greedy). -/
def spaceCount : List Char → Nat
  | c :: cs => if pyIsSpace c then spaceCount cs + 1 else 0
  | [] => 0

/-- `\b` test at offset `n` of `l`, in a state where the character just before
offset `n` is a word character (always a digit or letter at the call sites):
the boundary holds iff the character at offset `n` is absent or non-word. -/
def wordBoundaryAt (l : List Char) (n : Nat) : Bool :=
  match (l.drop n).head? with
  | none => true
  | some c => !pyWordChar c

/-- Maximal number of repetitions of `(?:,\d{3})` at the head of the list
(the greedy star in `NUMERIC_RE`; each repetition is exactly four chars). -/
def matchCommaGroups : List Char → Nat
  | ',' :: d1 :: d2 :: d3 :: rest =>
      if d1.isDigit && d2.isDigit && d3.isDigit then matchCommaGroups rest + 1 else 0
  | _ => 0

/-- Backtracking over the digit count of `(?:\.\d+)\b` (digits tried longest
first, each followed by the final `\b` of the first `NUMERIC_RE` alternative).
`rest` is the list just after the `'.'`; returns the digit count used. -/
def tryDecLens (rest : List Char) : Nat → Option Nat
  | 0 => none
  | n + 1 => if wordBoundaryAt rest (n + 1) then some (n + 1) else tryDecLens rest n

/-- Optional group `(?:\.\d+)?` followed by `\b`, tried with the group first
(its `\d+` greedy) and the boundary inside; returns consumed length. -/
def tryDecimal (l : List Char) : Option Nat :=
  match l with
  | '.' :: rest =>
      match tryDecLens rest (digitsCount rest) with
      | some dl => some (dl + 1)
      | none => none
  | _ => none

/-- End of the first `NUMERIC_RE` alternative after `n3` head digits and `r`
comma groups: try the optional decimal group (boundary inside), else require
the boundary directly.  Returns the total consumed length. -/
def finishA (l : List Char) (n3 r : Nat) : Option Nat :=
  let pos := n3 + 4 * r
  match tryDecimal (l.drop pos) with
  | some dl => some (pos + dl)
  | none => if wordBoundaryAt l pos then some pos else none

/-- Backtracking over the number of comma groups, greedily from `r` down. -/
def tryReps (l : List Char) (n3 : Nat) : Nat → Option Nat
  | 0 => finishA l n3 0
  | r + 1 =>
      match finishA l n3 (r + 1) with
      | some len => some len
      | none => tryReps l n3 r

/-- Backtracking over the `\d{1,3}` count, greedily from `n` down to 1. -/
def tryN3 (l : List Char) : Nat → Option Nat
  | 0 => none
  | n + 1 =>
      match tryReps l (n + 1) (matchCommaGroups (l.drop (n + 1))) with
      | some len => some len
      | none => tryN3 l n

/-- First alternative of `NUMERIC_RE`, `\b\d{1,3}(?:,\d{3})*(?:\.\d+)?\b`,
anchored at the head of `l` (the leading `\b` is checked by the caller).
Returns the consumed length. -/
def matchAltA (l : List Char) : Option Nat :=
  tryN3 l (min 3 (digitsCount l))

/-- Case-insensitive literal match (for the `re.I` flag on `NUMERIC_RE`);
returns the remainder of the subject on success. -/
def matchLitCI : List Char → List Char → Option (List Char)
  | [], rest => some rest
  | _ :: _, [] => none
  | w :: ws, c :: cs => if w.toLower == c.toLower then matchLitCI ws cs else none

/-- `(million|billion|thousand)\b`, case-insensitive, alternatives in pattern
order; returns consumed length. -/
def tryMagWord (l : List Char) : Option Nat :=
  match matchLitCI "million".data l with
  | some rest => if (match rest.head? with | none => true | some c => !pyWordChar c) then some 7 else none
  | none =>
    match matchLitCI "billion".data l with
    | some rest => if (match rest.head? with | none => true | some c => !pyWordChar c) then some 7 else none
    | none =>
      match matchLitCI "thousand".data l with
      | some rest => if (match rest.head? with | none => true | some c => !pyWordChar c) then some 8 else none
      | none => none

/-- `\s*(million|billion|thousand)\b` at the head of `l3`. -/
def afterNumB (l3 : List Char) : Option Nat :=
  let w := spaceCount l3
  match tryMagWord (l3.drop w) with
  | some wl => some (w + wl)
  | none => none

/-- Backtracking over the digit count of the optional `(?:\.\d+)` of the
second alternative, each followed by `\s*(million|billion|thousand)\b`. -/
def tryBDecLens (rest : List Char) : Nat → Option Nat
  | 0 => none
  | n + 1 =>
      match afterNumB (rest.drop (n + 1)) with
      | some m => some (n + 2 + m)
      | none => tryBDecLens rest n

/-- Tail of the second alternative after `L` head digits. -/
def finishB (l : List Char) (L : Nat) : Option Nat :=
  let l2 := l.drop L
  match l2 with
  | '.' :: rest =>
      match tryBDecLens rest (digitsCount rest) with
      | some len => some (L + len)
      | none =>
          match afterNumB l2 with
          | some m => some (L + m)
          | none => none
  | _ =>
      match afterNumB l2 with
      | some m => some (L + m)
      | none => none

/-- Backtracking over the `\d+` count of the second alternative. -/
def tryBLens (l : List Char) : Nat → Option Nat
  | 0 => none
  | n + 1 =>
      match finishB l (n + 1) with
      | some len => some len
      | none => tryBLens l n

/-- Second alternative of `NUMERIC_RE`,
`\b\d+(?:\.\d+)?\s*(million|billion|thousand)\b`, anchored at the head. -/
def matchAltB (l : List Char) : Option Nat :=
  tryBLens l (digitsCount l)

/-- `NUMERIC_RE` match attempt at one position: the leading `\b` (the next
character must be a digit, hence the boundary reduces to the previous
character being absent or non-word), then the two alternatives in pattern
order.  `prev` is the character before the position. -/
def matchNumericAt (prev : Option Char) (l : List Char) : Option Nat :=
  if (match prev with | none => true | some p => !pyWordChar p) then
    match matchAltA l with
    | some n => some n
    | none => matchAltB l
  else none

/-- `NUMERIC_RE.finditer`: scan left to right, non-overlapping, leftmost
matches; yields (start position, matched text).  `fuel` bounds the number of
steps; every step consumes at least one character, so `length + 1` suffices. -/
def numericFinditerAux : Nat → Option Char → List Char → Nat → List (Nat × String)
  | 0, _, _, _ => []
  | _ + 1, _, [], _ => []
  | f + 1, prev, c :: cs, pos =>
      match matchNumericAt prev (c :: cs) with
      | some n =>
          let tok := (c :: cs).take n
          (pos, String.mk tok) :: numericFinditerAux f tok.getLast? ((c :: cs).drop n) (pos + n)
      | none => numericFinditerAux f (some c) cs (pos + 1)

/-- All `NUMERIC_RE` matches of a string, with start positions. -/
def numeric_finditer (s : String) : List (Nat × String) :=
  numericFinditerAux (s.data.length + 1) none s.data 0

/-- The numeric tokens of a sentence (`m.group(0)` for each match). -/
def numeric_tokens (s : String) : List String :=
  (numeric_finditer s).map (fun p => p.2)

/-- `NUMERIC_RE.search`: the first match, if any. -/
def numeric_search (s : String) : Option (Nat × String) :=
  (numeric_finditer s).head?

/-- `YEAR_RE` (`\b(17|18|19|20)\d{2}\b`) match test at one position. -/
def matchYearAt (prev : Option Char) (l : List Char) : Bool :=
  (match prev with | none => true | some p => !pyWordChar p) &&
  (match l with
   | a :: b :: c :: d :: rest =>
       ((a == '1' && (b == '7' || b == '8' || b == '9')) || (a == '2' && b == '0')) &&
       c.isDigit && d.isDigit &&
       (match rest.head? with | none => true | some e => !pyWordChar e)
   | _ => false)

/-- `YEAR_RE.search` scan. -/
def yearSearchAux : Option Char → List Char → Nat → Option (Nat × String)
  | _, [], _ => none
  | prev, c :: cs, pos =>
      if matchYearAt prev (c :: cs) then some (pos, String.mk ((c :: cs).take 4))
      else yearSearchAux (some c) cs (pos + 1)

/-- `YEAR_RE.search`: first bare 4-digit year (prefix 17/18/19/20), if any. -/
def year_search (s : String) : Option (Nat × String) :=
  yearSearchAux none s.data 0

/-- Is `needle` a prefix of `hay`? (for substring search). -/
def isPrefixList : List Char → List Char → Bool
  | [], _ => true
  | _ :: _, [] => false
  | a :: as, b :: bs => a == b && isPrefixList as bs

/-- First index where `needle` occurs in `hay` (Python `str.find`). -/
def findSubAux (needle : List Char) : List Char → Nat → Option Nat
  | [], i => if needle.isEmpty then some i else none
  | c :: cs, i => if isPrefixList needle (c :: cs) then some i else findSubAux needle cs (i + 1)

/-- Python `s.replace(a, b, 1)`: replace the first occurrence of `a` by `b`. -/
def pyReplace1 (s a b : String) : String :=
  match findSubAux a.data s.data 0 with
  | some i => String.mk (s.data.take i ++ b.data ++ s.data.drop (i + a.data.length))
  | none => s

/-- `_numeric_rule_replace`: if both sentences contain numeric tokens, the
counts agree and some positional pair differs, substitute pair by pair
(first occurrence each, via `str.replace(a, b, 1)`); else leave unchanged. -/
def numeric_rule_replace (ai_sentence src_sentence : String) : String × Bool :=
  let ai_nums := numeric_tokens ai_sentence
  let src_nums := numeric_tokens src_sentence
  if !ai_nums.isEmpty && !src_nums.isEmpty && ai_nums.length == src_nums.length &&
     (ai_nums.zip src_nums).any (fun p => p.1 != p.2) then
    ((ai_nums.zip src_nums).foldl (fun acc p => pyReplace1 acc p.1 p.2) ai_sentence, true)
  else (ai_sentence, false)

/-- `_split_sentences` scanner over `re.split(r'(?<=[.!?])\s+', text)`:
a split point is a maximal whitespace run whose preceding character is one of
`.`, `!`, `?`.  `skipping` is true while inside a consumed whitespace run;
`acc` holds the current piece reversed. -/
def splitAux : Bool → Option Char → List Char → List Char → List (List Char)
  | _, _, [], acc => [acc.reverse]
  | true, _, c :: cs, acc =>
      if pyIsSpace c then splitAux true (some c) cs acc
      else splitAux false (some c) cs [c]
  | false, prev, c :: cs, acc =>
      if pyIsSpace c && (match prev with
                         | some p => p == '.' || p == '!' || p == '?'
                         | none => false) then
        acc.reverse :: splitAux true (some c) cs []
      else splitAux false (some c) cs (c :: acc)

/-- `_split_sentences`: strip, split after sentence punctuation followed by
whitespace, strip each piece, drop empty pieces. -/
def split_sentences (text : String) : List String :=
  (((splitAux false none (pyStrip text).data []).map (fun l => pyStrip (String.mk l))).filter
    (fun s => s != ""))

/-- One row update of the longest-common-subsequence table: `diag` is the
entry up-left, `left` the entry just written, `oldTail` the rest of the
previous row. -/
def lcsRowGo (x : Char) : List Char → Nat → Nat → List Nat → List Nat
  | [], _, _, _ => []
  | _ :: _, _, _, [] => []
  | c :: cs, diag, left, up :: rest =>
      let v := if c == x then diag + 1 else max left up
      v :: lcsRowGo x cs up v rest

/-- New LCS table row for character `x` against `b`, from the previous row. -/
def lcsStepRow (x : Char) (b : List Char) (old : List Nat) : List Nat :=
  match old with
  | o0 :: orest => 0 :: lcsRowGo x b o0 0 orest
  | [] => []

/-- Length of the longest common subsequence (row-by-row dynamic program). -/
def lcsLen (a b : List Char) : Nat :=
  ((a.foldl (fun row x => lcsStepRow x b row) (List.replicate (b.length + 1) 0)).getLast?).getD 0

/-- `rapidfuzz.fuzz.ratio`: normalised indel similarity scaled to 0–100.
The indel distance is `|a| + |b| - 2·lcs`, so the score is
`200·lcs/(|a|+|b|)`; two empty strings score 100.  (Built with `mkRat` so
that the value computes inside the kernel; `mkRat n d = n / d`.) -/
def fuzz_ratio_val (a b : String) : ℚ :=
  let la := a.data.length
  let lb := b.data.length
  if la + lb = 0 then 100 else mkRat (200 * lcsLen a.data b.data) (la + lb)

/-- Stable insertion (descending by score; an element is placed before the
first strictly smaller score, after equal ones inserted earlier). -/
def insertDesc (x : Nat × String × ℚ) : List (Nat × String × ℚ) → List (Nat × String × ℚ)
  | [] => [x]
  | y :: ys => if x.2.2 ≥ y.2.2 then x :: y :: ys else y :: insertDesc x ys

/-- Stable sort, descending by score, ties in original order (the order
`rapidfuzz.process.extract` reports results in). -/
def sortDesc (l : List (Nat × String × ℚ)) : List (Nat × String × ℚ) :=
  l.foldr insertDesc []

/-- `_best_source_candidates`: the `k` source sentences most similar to the
AI sentence under `fuzz.ratio`, best first, ties by source order. -/
def best_source_candidates (ai_sentence : String) (source_sentences : List String) (k : Nat) :
    List String :=
  let scored := source_sentences.enum.map (fun p => (p.1, p.2, fuzz_ratio_val ai_sentence p.2))
  ((sortDesc scored).take k).map (fun t => t.2.1)

/-- `difflib` autojunk: for `b` of length at least 200, characters occurring
more than `len(b) // 100 + 1` times are purged from the index `b2j`. -/
def popularChar (b : List Char) (c : Char) : Bool :=
  decide (200 ≤ b.length) && decide (b.length / 100 + 1 < b.count c)

/-- A scoring cell of `find_longest_match`: positions `i` of `a` and `j` of
`b` carry equal characters and `b`'s character is indexed (not purged). -/
def matchCell (a b : List Char) (i j : Nat) : Bool :=
  match a[i]?, b[j]? with
  | some x, some y => x == y && !popularChar b y
  | _, _ => false

/-- The `j2len` recurrence of `find_longest_match`: length of the run of
scoring cells ending at `(i, j)` and staying inside the window lower bounds
`alo`, `blo`. -/
def runLen (a b : List Char) (alo blo : Nat) : Nat → Nat → Nat
  | i + 1, j + 1 =>
      if matchCell a b (i + 1) (j + 1) && decide (alo ≤ i + 1) && decide (blo ≤ j + 1) then
        if decide (alo ≤ i) && decide (blo ≤ j) then runLen a b alo blo i j + 1 else 1
      else 0
  | i, j => if matchCell a b i j && decide (alo ≤ i) && decide (blo ≤ j) then 1 else 0

/-- All window positions in the iteration order of `find_longest_match`
(`i` ascending outer, `j` ascending inner). -/
def lexPairs (alo ahi blo bhi : Nat) : List (Nat × Nat) :=
  (List.range' alo (ahi - alo)).flatMap (fun i => (List.range' blo (bhi - blo)).map (fun j => (i, j)))

/-- The `k > bestsize` update of `find_longest_match`: a strictly longer run
replaces the stored block `(besti, bestj, bestsize)`. -/
def bestStep (a b : List Char) (alo blo : Nat) (st : Nat × Nat × Nat) (p : Nat × Nat) :
    Nat × Nat × Nat :=
  let k := runLen a b alo blo p.1 p.2
  if k > st.2.2 then (p.1 + 1 - k, p.2 + 1 - k, k) else st

/-- Character comparison through the optional indexing used by the block
extension loops. -/
def charEqOpt (a : List Char) (i : Nat) (b : List Char) (j : Nat) : Bool :=
  match a[i]?, b[j]? with
  | some x, some y => x == y
  | _, _ => false

/-- First extension loop of `find_longest_match`: grow the block backwards
while characters match (`isjunk` is `None` in `_minimal_edit_valid`, so the
junk set is empty and the junk-crossing loops never fire). -/
def extendBack (a b : List Char) (alo blo : Nat) : Nat → Nat → Nat → Nat × Nat × Nat
  | 0, bj, bs => (0, bj, bs)
  | bi + 1, bj, bs =>
      if decide (alo ≤ bi) && decide (blo < bj) && charEqOpt a bi b (bj - 1) then
        extendBack a b alo blo bi (bj - 1) (bs + 1)
      else (bi + 1, bj, bs)

/-- Second extension loop: grow the block forwards while inside the window
and characters match.  `fuel` only bounds the iteration count; the guard
`bi + bs < ahi` keeps the count below `ahi`, so fuel `ahi` is never
exhausted. -/
def extendFwd (a b : List Char) (ahi bhi bi bj : Nat) : Nat → Nat → Nat
  | 0, bs => bs
  | f + 1, bs =>
      if decide (bi + bs < ahi) && decide (bj + bs < bhi) && charEqOpt a (bi + bs) b (bj + bs) then
        extendFwd a b ahi bhi bi bj f (bs + 1)
      else bs

/-- `SequenceMatcher.find_longest_match` on the window
`a[alo:ahi]`, `b[blo:bhi]`: the scoring scan (first strictly longer run wins,
iteration order as in `lexPairs`), then the two extension loops. -/
def flm (a b : List Char) (alo ahi blo bhi : Nat) : Nat × Nat × Nat :=
  match (lexPairs alo ahi blo bhi).foldl (bestStep a b alo blo) (alo, blo, 0) with
  | (bi, bj, bs) =>
    match extendBack a b alo blo bi bj bs with
    | (bi2, bj2, bs2) => (bi2, bj2, extendFwd a b ahi bhi bi2 bj2 ahi bs2)

/-- Total size of the matching blocks of `get_matching_blocks` (the queue
order of the Python code does not affect the sum; adjacent-block merging
preserves it).  `fuel` bounds the recursion depth: every recursive call
shrinks `(ahi - alo) + (bhi - blo)` by at least 2 while fuel drops by 1, so
the initial fuel `|a| + |b| + 1` is never exhausted. -/
def matchesF (a b : List Char) : Nat → Nat → Nat → Nat → Nat → Nat
  | 0, _, _, _, _ => 0
  | f + 1, alo, ahi, blo, bhi =>
      match flm a b alo ahi blo bhi with
      | (i, j, k) =>
        if k = 0 then 0
        else
          k + (if alo < i ∧ blo < j then matchesF a b f alo i blo j else 0) +
          (if i + k < ahi ∧ j + k < bhi then matchesF a b f (i + k) ahi (j + k) bhi else 0)

/-- `sum(size for block in get_matching_blocks)` over the whole strings. -/
def matchesTotal (a b : List Char) : Nat :=
  matchesF a b (a.length + b.length + 1) 0 a.length 0 b.length

/-- `difflib.SequenceMatcher(None, a, b).ratio()` as an exact rational:
`2·matches / (|a| + |b|)`, and 1 for two empty strings.  (Built with
`mkRat` so that the value computes inside the kernel.) -/
def seq_ratio_val (a b : String) : ℚ :=
  let t := a.data.length + b.data.length
  if t = 0 then 1 else mkRat (2 * matchesTotal a.data b.data) t

/-- `1 - q` for a rational, written through `mkRat` on the normalised
numerator and denominator so that it computes inside the kernel;
`one_sub_eq` below proves it equal to `1 - q`. -/
def one_sub (q : ℚ) : ℚ :=
  mkRat ((q.den : Int) - q.num) q.den

/-- `_minimal_edit_valid`: accept iff the changed fraction `1 - ratio` is at
most `max_fraction` (the pipeline always passes the default 0.4 = 2/5). -/
def minimal_edit_valid (original candidate : String) (max_fraction : ℚ) : Bool :=
  decide (one_sub (seq_ratio_val original candidate) ≤ max_fraction)

/-- `call_llm_surgical`: a successful response yields `r.json()["text"].strip()`;
any transport, timeout or non-2xx failure is caught and becomes `""`. -/
def call_llm_surgical (response : Option String) : String :=
  match response with
  | some t => pyStrip t
  | none => ""

/-- `_build_surgical_prompt`, verbatim. -/
def build_surgical_prompt (ai_sentence_marked source_sentence : String) : String :=
  "You are an editor that must make exactly one minimal factual edit. " ++
  "Output exactly one sentence and nothing else.\n" ++
  "AI sentence:\n" ++
  "\"" ++ ai_sentence_marked ++ "\"\n\n" ++
  "Source sentence (ground truth):\n" ++
  "\"" ++ source_sentence ++ "\"\n\n" ++
  "Task: Replace only the text between << and >> if it is factually incorrect. " ++
  "Do not change any other words, punctuation, or capitalization. " ++
  "If the marked text is correct, return the AI sentence exactly as given.\n" ++
  "Output only the corrected sentence.\n"

/-- `ai_s[:start] + "<<" + span + ">>" + ai_s[end:]`. -/
def mark_span (s : String) (pos : Nat) (tok : String) : String :=
  String.mk (s.data.take pos ++ ('<' :: '<' :: tok.data) ++ ('>' :: '>' :: s.data.drop (pos + tok.data.length)))

/-- The candidate list used per sentence:
`_best_source_candidates(ai_s, src_sents, k=3) if src_sents else []`. -/
def candidates_of (ai_s : String) (src_sents : List String) : List String :=
  if src_sents.isEmpty then [] else best_source_candidates ai_s src_sents 3

/-- Stage 1 of the per-sentence loop: the first candidate (in rank order) on
which `_numeric_rule_replace` reports a change, with the corrected text. -/
def first_numeric_fix (ai_s : String) : List String → Option String
  | [] => none
  | c :: cs =>
      let r := numeric_rule_replace ai_s c
      if r.2 then some r.1 else first_numeric_fix ai_s cs

/-- Diagnostics counters of `surgical_rectify`. -/
structure Diagnostics where
  llm_calls : Nat
  edits : Nat
deriving DecidableEq, Repr

/-- Validation of one model response `resp` against the original sentence:
accept a non-empty response that passes `_minimal_edit_valid` at the default
threshold 0.4 = `mkRat 2 5` (counting an edit iff the accepted text
differs), else fall back to the original sentence; the request itself is
counted either way. -/
def llm_validate (ai_s resp : String) : String × Nat × Nat :=
  if resp != "" && minimal_edit_valid ai_s resp (mkRat 2 5) then
    (resp, 1, if resp != ai_s then 1 else 0)
  else (ai_s, 1, 0)

/-- The request/validate/fallback block that `surgical_rectify` repeats in
its two model-assisted branches (marked-span and low-similarity). -/
def llm_step (oracle : Nat → String → Option String) (call_idx : Nat)
    (ai_s prompt_sentence c0 : String) : String × Nat × Nat :=
  llm_validate ai_s (call_llm_surgical (oracle call_idx (build_surgical_prompt prompt_sentence c0)))

/-- The body of the per-sentence loop of `surgical_rectify`: returns the
output sentence, the number of external requests issued (0 or 1) and the
number of edits recorded (0 or 1).  `call_idx` numbers the request given to
the oracle (the running value of `llm_calls`).  The low-similarity
threshold 0.75 is `mkRat 3 4`. -/
def rectify_sentence (oracle : Nat → String → Option String) (src_sents : List String)
    (call_idx : Nat) (ai_s : String) : String × Nat × Nat :=
  match first_numeric_fix ai_s (candidates_of ai_s src_sents) with
  | some corrected => (corrected, 0, 1)
  | none =>
    match (match numeric_search ai_s with
           | some sp => some sp
           | none => year_search ai_s), candidates_of ai_s src_sents with
    | some sp, c0 :: _ => llm_step oracle call_idx ai_s (mark_span ai_s sp.1 sp.2) c0
    | _, _ =>
      match candidates_of ai_s src_sents with
      | c0 :: _ =>
          if seq_ratio_val ai_s c0 < mkRat 3 4 then llm_step oracle call_idx ai_s ai_s c0
          else (ai_s, 0, 0)
      | [] => (ai_s, 0, 0)

/-- The sentence loop of `surgical_rectify`, threading the counters. -/
def rectify_loop (oracle : Nat → String → Option String) (src_sents : List String) :
    List String → Nat → Nat → List String × Nat × Nat
  | [], llm, ed => ([], llm, ed)
  | s :: rest, llm, ed =>
      let r := rectify_sentence oracle src_sents llm s
      let t := rectify_loop oracle src_sents rest (llm + r.2.1) (ed + r.2.2)
      (r.1 :: t.1, t.2.1, t.2.2)

/-- The corrected sentence list produced by `surgical_rectify`. -/
def surgical_rectify_sents (ai_text source_text : String)
    (oracle : Nat → String → Option String) : List String :=
  (rectify_loop oracle (split_sentences source_text) (split_sentences ai_text) 0 0).1

/-- `surgical_rectify`: segment both texts, run the per-sentence pipeline,
join with single spaces, return text plus diagnostics. -/
def surgical_rectify (ai_text source_text : String)
    (oracle : Nat → String → Option String) : String × Diagnostics :=
  let r := rectify_loop oracle (split_sentences source_text) (split_sentences ai_text) 0 0
  (String.intercalate " " r.1, ⟨r.2.1, r.2.2⟩)

/-! ## Basic lemmas -/

set_option maxRecDepth 10000

/-- `one_sub` computes `1 - q`. -/
theorem one_sub_eq (q : ℚ) : one_sub q = 1 - q := by
  unfold one_sub
  rw [Rat.mkRat_eq_div]
  push_cast
  rw [sub_div, div_self (by exact_mod_cast q.den_ne_zero), Rat.num_div_den]

/-- A sentence without numeric tokens is never changed by the deterministic
rule (shared helper). -/
theorem numeric_rule_replace_no_tokens (ai src : String) (h : numeric_tokens ai = []) :
    numeric_rule_replace ai src = (ai, false) := by
  simp [numeric_rule_replace, h]

/-- A sentence without numeric tokens is not fixed by stage 1 against any
candidate list (shared helper). -/
theorem first_numeric_fix_no_tokens (ai : String) (h : numeric_tokens ai = []) :
    ∀ l : List String, first_numeric_fix ai l = none := by
  intro l
  induction l with
  | nil => rfl
  | cons c cs ih =>
      simp [first_numeric_fix, numeric_rule_replace_no_tokens ai c h, ih]

/-! ## Claims C2, C3, C8 — the deterministic numeric corrector -/

/-- C2 (amended).  When both sentences have numeric tokens, the counts agree
and some positional pair differs, `_numeric_rule_replace` reports
`changed = true` and returns the sentence obtained by replacing, for each
positional pair in order, the **first occurrence** of the AI token text by
its source counterpart; in particular, for AI sentence
`"Sales reached 10 million units."` and candidate
`"Sales reached 12 million units."` the result is
`"Sales reached 12 million units."` with `changed = true`.  (The original
claim also asserted that each numeric token is substituted in place with all
non-numeric text preserved verbatim; `c2_counterexample` shows this fails
when the token text occurs earlier in the sentence inside non-numeric
text.) -/
theorem c2_numeric_rule_first_occurrence :
    (∀ ai src : String,
      numeric_tokens ai ≠ [] → numeric_tokens src ≠ [] →
      (numeric_tokens ai).length = (numeric_tokens src).length →
      (∃ p ∈ (numeric_tokens ai).zip (numeric_tokens src), p.1 ≠ p.2) →
      numeric_rule_replace ai src =
        (((numeric_tokens ai).zip (numeric_tokens src)).foldl
          (fun acc p => pyReplace1 acc p.1 p.2) ai, true)) ∧
    numeric_rule_replace "Sales reached 10 million units." "Sales reached 12 million units." =
      ("Sales reached 12 million units.", true) := by
  constructor
  · intro ai src h1 h2 h3 h4
    have hc : (!(numeric_tokens ai).isEmpty && !(numeric_tokens src).isEmpty &&
        ((numeric_tokens ai).length == (numeric_tokens src).length) &&
        ((numeric_tokens ai).zip (numeric_tokens src)).any (fun p => p.1 != p.2)) = true := by
      simp only [Bool.and_eq_true, Bool.not_eq_true', List.isEmpty_eq_false,
        beq_iff_eq, List.any_eq_true, bne_iff_ne]
      exact ⟨⟨⟨h1, h2⟩, h3⟩, h4⟩
    simp only [numeric_rule_replace, hc, if_true]
  · decide

/-- C2 witness: a concrete instance of the amended substitution statement. -/
theorem c2_witness :
    numeric_rule_replace "Had 3 cats." "Had 4 cats." = ("Had 4 cats.", true) :=
  (c2_numeric_rule_first_occurrence.1 "Had 3 cats." "Had 4 cats."
    (by decide) (by decide) (by decide) (by decide)).trans (by decide)

/-- C2 counterexample: the claim as stated predicts that the numeric token
`"10"` (at position 9) is substituted by `"12"` with all non-numeric text
preserved, i.e. output `"x10 sold 12 units."`; the code replaces the first
occurrence of the substring `"10"`, which lies inside the non-numeric word
`"x10"`, producing `"x12 sold 10 units."`. -/
theorem c2_counterexample :
    numeric_rule_replace "x10 sold 10 units." "x10 sold 12 units." =
      ("x12 sold 10 units.", true) ∧
    "x12 sold 10 units." ≠ "x10 sold 12 units." := by
  decide

/-- C3.  If the token counts differ, or either side has no numeric token, or
every positional pair is equal, the deterministic rule returns the AI
sentence unchanged with `changed = false`. -/
theorem c3_numeric_rule_abstention (ai src : String)
    (h : (numeric_tokens ai).length ≠ (numeric_tokens src).length ∨
         numeric_tokens ai = [] ∨ numeric_tokens src = [] ∨
         ∀ p ∈ (numeric_tokens ai).zip (numeric_tokens src), p.1 = p.2) :
    numeric_rule_replace ai src = (ai, false) := by
  have hc : (!(numeric_tokens ai).isEmpty && !(numeric_tokens src).isEmpty &&
      ((numeric_tokens ai).length == (numeric_tokens src).length) &&
      ((numeric_tokens ai).zip (numeric_tokens src)).any (fun p => p.1 != p.2)) = false := by
    rw [Bool.eq_false_iff]
    intro hc
    simp only [Bool.and_eq_true, Bool.not_eq_true', List.isEmpty_eq_false,
      beq_iff_eq, List.any_eq_true, bne_iff_ne] at hc
    obtain ⟨⟨⟨h1, h2⟩, h3⟩, p, hp, hne⟩ := hc
    rcases h with h | h | h | h
    · exact h h3
    · exact h1 h
    · exact h2 h
    · exact hne (h p hp)
  simp [numeric_rule_replace, hc]

/-- C3 witness: the spec example sentence against a candidate with a
different token count (1 token vs 2). -/
theorem c3_witness :
    numeric_rule_replace "Revenue grew by 5% in 2020." "Revenue grew by 6 and 7 units." =
      ("Revenue grew by 5% in 2020.", false) :=
  c3_numeric_rule_abstention _ _ (Or.inl (by decide))

/-- C8 (amended).  The numeric extraction used by the deterministic corrector
(`NUMERIC_RE`) does **not** recognise bare 4-digit years: a sentence whose
only number-like content is a bare year has no numeric tokens at all, so the
deterministic rule leaves it unchanged with `changed = false`.  Bare years in
1700–2099 are recognised only by the separate `YEAR_RE`, which the pipeline
uses for span detection. -/
theorem c8_year_amended :
    (∀ ai src : String, numeric_tokens ai = [] →
      numeric_rule_replace ai src = (ai, false)) ∧
    numeric_tokens "The war ended in 1987." = [] ∧
    year_search "The war ended in 1987." = some (17, "1987") := by
  refine ⟨fun ai src h => numeric_rule_replace_no_tokens ai src h, by decide, by decide⟩

/-- C8 witness: a year-only sentence pair is returned unchanged. -/
theorem c8_witness :
    numeric_rule_replace "Met them in 1845." "Met them in 1846." =
      ("Met them in 1845.", false) :=
  c8_year_amended.1 _ _ (by decide)

/-- C8 counterexample: the claim predicts that for AI/candidate sentences
whose only numeric tokens are differing bare years the rule substitutes the
source year and reports `changed = true`; the code reports `changed = false`
and leaves the sentence unchanged, because `NUMERIC_RE` does not match bare
4-digit years. -/
theorem c8_counterexample :
    numeric_rule_replace "The war ended in 1987." "The war ended in 1989." =
      ("The war ended in 1987.", false) := by
  decide

/-! ## Claim C4 — the minimal-edit validator -/

/-- C4.  The validator accepts exactly when the changed fraction
`1 - ratio` is at most the threshold; consequently any candidate whose
similarity ratio with the original is below 0.6 is rejected at the default
threshold 0.4, regardless of its content. -/
theorem c4_minimal_edit_threshold :
    (∀ (original candidate : String) (f : ℚ),
      minimal_edit_valid original candidate f = true ↔
        1 - seq_ratio_val original candidate ≤ f) ∧
    (∀ original candidate : String,
      seq_ratio_val original candidate < 3/5 →
        minimal_edit_valid original candidate (2/5) = false) := by
  have key : ∀ (o c : String) (f : ℚ),
      minimal_edit_valid o c f = true ↔ 1 - seq_ratio_val o c ≤ f := by
    intro o c f
    rw [minimal_edit_valid, decide_eq_true_iff, one_sub_eq]
  refine ⟨key, fun o c h => ?_⟩
  rw [Bool.eq_false_iff]
  intro hacc
  have := (key o c (2/5)).mp hacc
  linarith

/-- C4 witness: two strings with no common characters have ratio 0 < 0.6 and
are rejected. -/
theorem c4_witness : minimal_edit_valid "abcde" "vwxyz" (2/5) = false :=
  c4_minimal_edit_threshold.2 "abcde" "vwxyz" (by
    have h : seq_ratio_val "abcde" "vwxyz" = 0 := by decide
    rw [h]; norm_num)

/-! ## Structural lemmas about the per-sentence loop -/

/-- `llm_validate` always counts exactly one request. -/
theorem llm_validate_calls (s r : String) : (llm_validate s r).2.1 = 1 := by
  unfold llm_validate
  split
  · rfl
  · rfl

/-- `llm_validate` records at most one edit. -/
theorem llm_validate_edits_le (s r : String) : (llm_validate s r).2.2 ≤ 1 := by
  unfold llm_validate
  split
  · split <;> simp
  · simp

/-- If `llm_validate` returns a sentence different from its input, it
recorded the edit. -/
theorem llm_validate_edit_of_ne (s r : String) (h : (llm_validate s r).1 ≠ s) :
    (llm_validate s r).2.2 = 1 := by
  revert h
  unfold llm_validate
  split
  · intro h
    simp only at h ⊢
    simp [h]
  · intro h
    exact absurd rfl h

/-- With a failing oracle, `llm_step` falls back to the original sentence
(one request counted, no edit). -/
theorem llm_step_fail (i : Nat) (s p c0 : String) :
    llm_step (fun _ _ => none) i s p c0 = (s, 1, 0) := by
  rfl

/-- Case analysis on the per-sentence pipeline: pass-through, deterministic
fix, or a model-assisted attempt (shared helper). -/
theorem rectify_sentence_shape (oracle : Nat → String → Option String)
    (ss : List String) (i : Nat) (s : String) :
    (first_numeric_fix s (candidates_of s ss) = none ∧
      rectify_sentence oracle ss i s = (s, 0, 0)) ∨
    (∃ c, first_numeric_fix s (candidates_of s ss) = some c ∧
      rectify_sentence oracle ss i s = (c, 0, 1)) ∨
    (first_numeric_fix s (candidates_of s ss) = none ∧
      ∃ p c0, rectify_sentence oracle ss i s = llm_step oracle i s p c0) := by
  unfold rectify_sentence
  cases h1 : first_numeric_fix s (candidates_of s ss) with
  | some c => exact Or.inr (Or.inl ⟨c, rfl, rfl⟩)
  | none =>
    cases hsp : (match numeric_search s with | some sp => some sp | none => year_search s) with
    | some sp =>
      cases hc : candidates_of s ss with
      | nil => exact Or.inl ⟨rfl, rfl⟩
      | cons c0 rest => exact Or.inr (Or.inr ⟨rfl, _, c0, rfl⟩)
    | none =>
      cases hc : candidates_of s ss with
      | nil => exact Or.inl ⟨rfl, rfl⟩
      | cons c0 rest =>
        by_cases hr : seq_ratio_val s c0 < mkRat 3 4
        · exact Or.inr (Or.inr ⟨rfl, s, c0, by dsimp only; rw [if_pos hr]⟩)
        · exact Or.inl ⟨rfl, by dsimp only; rw [if_neg hr]⟩

/-- Each sentence issues at most one request and records at most one edit
(shared helper for C7 and C9). -/
theorem rectify_sentence_counter_bounds (oracle : Nat → String → Option String)
    (ss : List String) (i : Nat) (s : String) :
    (rectify_sentence oracle ss i s).2.1 ≤ 1 ∧ (rectify_sentence oracle ss i s).2.2 ≤ 1 := by
  rcases rectify_sentence_shape oracle ss i s with ⟨-, h⟩ | ⟨c, -, h⟩ | ⟨-, p, c0, h⟩ <;> rw [h]
  · simp
  · simp
  · rw [llm_step]
    exact ⟨le_of_eq (llm_validate_calls _ _), llm_validate_edits_le _ _⟩

/-- The output list of the loop has exactly one sentence per input sentence
(shared helper for C1). -/
theorem rectify_loop_length (oracle : Nat → String → Option String) (ss : List String) :
    ∀ (sents : List String) (llm ed : Nat),
      ((rectify_loop oracle ss sents llm ed).1).length = sents.length := by
  intro sents
  induction sents with
  | nil => intro llm ed; rfl
  | cons s rest ih => intro llm ed; simp [rectify_loop, ih]

/-- The loop counters grow by at most one per sentence (shared helper for
C9). -/
theorem rectify_loop_counter_bounds (oracle : Nat → String → Option String) (ss : List String) :
    ∀ (sents : List String) (llm ed : Nat),
      (rectify_loop oracle ss sents llm ed).2.1 ≤ llm + sents.length ∧
      (rectify_loop oracle ss sents llm ed).2.2 ≤ ed + sents.length := by
  intro sents
  induction sents with
  | nil => intro llm ed; simp [rectify_loop]
  | cons s rest ih =>
      intro llm ed
      have hb := rectify_sentence_counter_bounds oracle ss llm s
      have ht := ih (llm + (rectify_sentence oracle ss llm s).2.1)
        (ed + (rectify_sentence oracle ss llm s).2.2)
      simp only [rectify_loop, List.length_cons]
      omega

/-- With no candidates (empty source), every sentence passes through
unchanged with no request and no edit (shared helper for C10). -/
theorem rectify_sentence_no_cands (oracle : Nat → String → Option String)
    (ss : List String) (i : Nat) (s : String) (h : candidates_of s ss = []) :
    rectify_sentence oracle ss i s = (s, 0, 0) := by
  unfold rectify_sentence
  rw [h]
  cases hsp : (match numeric_search s with | some sp => some sp | none => year_search s) <;>
    simp [first_numeric_fix]

/-! ## Claims C1, C9, C10 — orchestrator invariants -/

/-- C1.  For every AI text, source text and oracle, the pipeline produces
exactly one output sentence per segmented AI sentence, in order (the loop
appends exactly one sentence per iteration), and the rectified text is these
sentences joined with single spaces. -/
theorem c1_sentence_count_invariant :
    ∀ (ai_text source_text : String) (oracle : Nat → String → Option String),
      (surgical_rectify_sents ai_text source_text oracle).length =
        (split_sentences ai_text).length ∧
      (surgical_rectify ai_text source_text oracle).1 =
        String.intercalate " " (surgical_rectify_sents ai_text source_text oracle) := by
  intro ai source oracle
  exact ⟨rectify_loop_length oracle (split_sentences source) (split_sentences ai) 0 0, rfl⟩

/-- C9.  In every run, at most one request is issued and at most one edit is
recorded per segmented AI sentence, so `llm_calls` and `edits` are bounded by
the number of AI sentences. -/
theorem c9_diagnostics_bounds :
    ∀ (ai_text source_text : String) (oracle : Nat → String → Option String),
      (surgical_rectify ai_text source_text oracle).2.llm_calls ≤
        (split_sentences ai_text).length ∧
      (surgical_rectify ai_text source_text oracle).2.edits ≤
        (split_sentences ai_text).length := by
  intro ai source oracle
  have h := rectify_loop_counter_bounds oracle (split_sentences source) (split_sentences ai) 0 0
  simpa [surgical_rectify] using h

/-- C10.  If the source text segments to no sentences, no candidate is ever
retrieved: every AI sentence passes through unchanged, no request is issued
and no edit is recorded, and the result is the AI sentences joined with
single spaces. -/
theorem c10_empty_source (ai_text source_text : String)
    (oracle : Nat → String → Option String) (h : split_sentences source_text = []) :
    surgical_rectify ai_text source_text oracle =
      (String.intercalate " " (split_sentences ai_text), ⟨0, 0⟩) := by
  have hloop : ∀ (sents : List String) (llm ed : Nat),
      rectify_loop oracle [] sents llm ed = (sents, llm, ed) := by
    intro sents
    induction sents with
    | nil => intro llm ed; rfl
    | cons s rest ih =>
        intro llm ed
        rw [rectify_loop, rectify_sentence_no_cands oracle [] llm s (by rfl)]
        simp [ih]
  unfold surgical_rectify
  rw [h, hloop]

/-- C10 witness. -/
theorem c10_witness :
    surgical_rectify "A. B." "" (fun _ _ => none) = ("A. B.", ⟨0, 0⟩) :=
  (c10_empty_source "A. B." "" (fun _ _ => none) (by decide)).trans (by decide)

/-! ## Claim C6 — failure semantics -/

/-- The per-sentence output when only the deterministic path can act: the
first deterministic numeric fix over the ranked candidates, else the
sentence itself. -/
def det_fix (src_sents : List String) (s : String) : String :=
  match first_numeric_fix s (candidates_of s src_sents) with
  | some c => c
  | none => s

/-- With a failing oracle, the per-sentence output is exactly the
deterministic-only result (shared helper for C6). -/
theorem rectify_sentence_fail_output (ss : List String) (i : Nat) (s : String) :
    (rectify_sentence (fun _ _ => none) ss i s).1 = det_fix ss s := by
  rcases rectify_sentence_shape (fun _ _ => none) ss i s with
    ⟨h1, h⟩ | ⟨c, h1, h⟩ | ⟨h1, p, c0, h⟩
  · rw [h]
    unfold det_fix
    rw [h1]
  · rw [h]
    unfold det_fix
    rw [h1]
  · rw [h, llm_step_fail]
    unfold det_fix
    rw [h1]

/-- C6 (amended).  Transport, timeout and non-2xx failures are caught inside
`call_llm_surgical` and become the empty response, and with every request
failing the pipeline still completes, returning the AI sentences with only
deterministic numeric corrections applied, joined by single spaces.  (The
original claim said the output equals the original AI text; `c6_counterexample`
shows a deterministic correction still changes the text even though no
request succeeded.) -/
theorem c6_fallback_amended :
    (∀ (ai_text source_text : String),
      (surgical_rectify ai_text source_text (fun _ _ => none)).1 =
        String.intercalate " "
          ((split_sentences ai_text).map (det_fix (split_sentences source_text)))) ∧
    call_llm_surgical none = "" := by
  refine ⟨fun ai source => ?_, rfl⟩
  have hloop : ∀ (sents : List String) (llm ed : Nat),
      (rectify_loop (fun _ _ => none) (split_sentences source) sents llm ed).1 =
        sents.map (det_fix (split_sentences source)) := by
    intro sents
    induction sents with
    | nil => intro llm ed; rfl
    | cons s rest ih =>
        intro llm ed
        simp [rectify_loop, ih, rectify_sentence_fail_output]
  show String.intercalate " "
      (rectify_loop (fun _ _ => none) (split_sentences source) (split_sentences ai) 0 0).1 = _
  rw [hloop]

/-- C6 counterexample: every external request fails (the one issued request,
for the year-only second sentence, returns a transport failure), yet the
rectified output differs from the original AI text — the deterministic rule
still corrects the first sentence. -/
theorem c6_counterexample :
    (surgical_rectify "Sales hit 10 million units. It was 1987."
        "Sales hit 12 million units. It was 1989." (fun _ _ => none)) =
      ("Sales hit 12 million units. It was 1987.", ⟨1, 1⟩) ∧
    "Sales hit 12 million units. It was 1987." ≠
      "Sales hit 10 million units. It was 1987." := by
  decide

/-! ## Claim C7 — diagnostics accuracy -/

/-- C7 (amended).  `llm_calls` is incremented exactly once per external
request (each sentence contributes its 0-or-1 request count), and `edits` is
incremented at most once per sentence and always when the final text of a
sentence differs from its input; the example article of the spec (2 deterministic
corrections and 1 accepted external correction) reports `edits = 3`,
`llm_calls = 1`.  (The original claim also said `edits` is **never**
incremented for a sentence whose final text equals its input;
`c7_counterexample` shows a deterministic substitution can cancel out, the
sentence comes back verbatim, and `edits` is still incremented.) -/
theorem c7_diagnostics_amended :
    (∀ (oracle : Nat → String → Option String) (ss : List String) (i : Nat) (s : String),
      ((rectify_sentence oracle ss i s).1 ≠ s → (rectify_sentence oracle ss i s).2.2 = 1) ∧
      (rectify_sentence oracle ss i s).2.2 ≤ 1 ∧
      (rectify_sentence oracle ss i s).2.1 ≤ 1) ∧
    surgical_rectify "Got 3 cats. Had 7 vans. Sky waned badly."
      "Got 4 cats. Had 9 vans. Tax law passed."
      (fun _ _ => some "Sky waned sadly.") =
      ("Got 4 cats. Had 9 vans. Sky waned sadly.", ⟨1, 3⟩) := by
  constructor
  · intro oracle ss i s
    refine ⟨?_, (rectify_sentence_counter_bounds oracle ss i s).2,
      (rectify_sentence_counter_bounds oracle ss i s).1⟩
    intro hne
    rcases rectify_sentence_shape oracle ss i s with ⟨-, h⟩ | ⟨c, -, h⟩ | ⟨-, p, c0, h⟩
    · rw [h] at hne
      exact absurd rfl hne
    · rw [h]
    · rw [h] at hne ⊢
      rw [llm_step] at hne ⊢
      exact llm_validate_edit_of_ne _ _ hne
  · decide

/-- C7 witness: a sentence whose final text differs from its input has its
edit counted. -/
theorem c7_witness :
    (rectify_sentence (fun _ _ => none) ["Sales hit 12 million units."] 0
      "Sales hit 10 million units.").2.2 = 1 :=
  ((c7_diagnostics_amended.1 (fun _ _ => none) ["Sales hit 12 million units."] 0
    "Sales hit 10 million units.").1) (by decide)

/-- C7 counterexample: the deterministic rule swaps `10` and `12`; the two
first-occurrence replacements cancel, the sentence is returned verbatim, yet
`edits = 1` — the claim says `edits` is never incremented for a sentence
whose final text equals its input. -/
theorem c7_counterexample :
    surgical_rectify "From 10 to 12." "From 12 to 10." (fun _ _ => none) =
      ("From 10 to 12.", ⟨0, 1⟩) := by
  decide

/-- C5 counterexample: the AI sentence exactly matches its best (and only)
source candidate and there is no numeric mismatch, yet the pipeline issues
one external request (the sentence contains a numeric span, so the
span-marked model path fires before the similarity check). -/
theorem c5_counterexample :
    (candidates_of "Sales reached 10 million units."
        ["Sales reached 10 million units."]).head? =
      some "Sales reached 10 million units." ∧
    rectify_sentence (fun _ _ => none) ["Sales reached 10 million units."] 0
        "Sales reached 10 million units." =
      ("Sales reached 10 million units.", 1, 0) := by
  decide

/-! ## The similarity of a string with itself is 1
(the `find_longest_match` scan on two equal strings selects a diagonal cell,
and the extension loops then grow the block to the whole string). -/

/-- `runLen` recurrence at window lower bounds 0. -/
theorem runLen_zz_succ (a b : List Char) (i j : Nat) :
    runLen a b 0 0 (i + 1) (j + 1) =
      if matchCell a b (i + 1) (j + 1) then runLen a b 0 0 i j + 1 else 0 := by
  simp [runLen]

/-- `runLen` base cases at window lower bounds 0. -/
theorem runLen_zz_base_left (a b : List Char) (j : Nat) :
    runLen a b 0 0 0 j = if matchCell a b 0 j then 1 else 0 := by
  cases j <;> simp [runLen]

/-- `runLen` base cases at window lower bounds 0, second index 0. -/
theorem runLen_zz_base_right (a b : List Char) (i : Nat) :
    runLen a b 0 0 i 0 = if matchCell a b i 0 then 1 else 0 := by
  cases i <;> simp [runLen]

/-- A run ending at `(i, j)` has length at most `i + 1`. -/
theorem runLen_zz_le (a b : List Char) : ∀ i j, runLen a b 0 0 i j ≤ i + 1 := by
  intro i
  induction i with
  | zero => intro j; rw [runLen_zz_base_left]; split <;> omega
  | succ i ih =>
      intro j
      cases j with
      | zero => rw [runLen_zz_base_right]; split <;> omega
      | succ j =>
          rw [runLen_zz_succ]
          split
          · exact Nat.succ_le_succ (ih j)
          · omega

/-- On equal strings the scoring cells are symmetric. -/
theorem matchCell_self_symm (a : List Char) (i j : Nat) :
    matchCell a a i j = matchCell a a j i := by
  unfold matchCell
  cases ha : a[i]? <;> cases hb : a[j]? <;> dsimp only
  all_goals try rfl
  rename_i x y
  by_cases hxy : x = y
  · subst hxy
    rfl
  · have h2 : y ≠ x := fun h => hxy h.symm
    have hx1 : (x == y) = false := by simp [hxy]
    have hx2 : (y == x) = false := by simp [h2]
    rw [hx1, hx2, Bool.false_and, Bool.false_and]

/-- A scoring cell on equal strings forces the two diagonal cells. -/
theorem matchCell_self_diag (a : List Char) (i j : Nat) (h : matchCell a a i j = true) :
    matchCell a a i i = true ∧ matchCell a a j j = true := by
  unfold matchCell at h ⊢
  cases ha : a[i]? <;> cases hb : a[j]? <;> rw [ha, hb] at h <;> dsimp only at h
  · simp at h
  · simp at h
  · simp at h
  · rename_i x y
    rw [Bool.and_eq_true, beq_iff_eq] at h
    obtain ⟨hxy, hpop⟩ := h
    subst hxy
    exact ⟨by simp [hpop], by simp [hpop]⟩

/-- On equal strings `runLen` is symmetric. -/
theorem runLen_self_symm (a : List Char) : ∀ i j, runLen a a 0 0 i j = runLen a a 0 0 j i := by
  intro i
  induction i with
  | zero => intro j; rw [runLen_zz_base_left, runLen_zz_base_right, matchCell_self_symm]
  | succ i ih =>
      intro j
      cases j with
      | zero => rw [runLen_zz_base_left, runLen_zz_base_right, matchCell_self_symm]
      | succ j => rw [runLen_zz_succ, runLen_zz_succ, matchCell_self_symm a (i+1) (j+1), ih j]

/-- On equal strings a run ending at `(i, j)` is dominated by the diagonal
run ending at `(j, j)`. -/
theorem runLen_self_le_diag (a : List Char) : ∀ i j, runLen a a 0 0 i j ≤ runLen a a 0 0 j j := by
  intro i
  induction i with
  | zero =>
      intro j
      rw [runLen_zz_base_left]
      split
      · rename_i h
        have hd := (matchCell_self_diag a 0 j h).2
        cases j with
        | zero => simp [runLen_zz_base_left, hd]
        | succ j => rw [runLen_zz_succ, if_pos hd]; omega
      · omega
  | succ i ih =>
      intro j
      cases j with
      | zero =>
          rw [runLen_zz_base_right, runLen_zz_base_left]
          split
          · rename_i h
            rw [if_pos (matchCell_self_diag a (i+1) 0 h).2]
          · omega
      | succ j =>
          rw [runLen_zz_succ, runLen_zz_succ]
          split
          · rename_i h
            rw [if_pos (matchCell_self_diag a (i+1) (j+1) h).2]
            exact Nat.succ_le_succ (ih j)
          · omega

/-- Folding over a flattened list equals the nested fold. -/
theorem foldl_flatMap {α β γ : Type} (l : List α) (f : α → List β) (g : γ → β → γ) :
    ∀ init : γ, (l.flatMap f).foldl g init = l.foldl (fun st x => (f x).foldl g st) init := by
  induction l with
  | nil => intro init; rfl
  | cons x xs ih => intro init; simp [List.flatMap_cons, List.foldl_append, ih]

/-- `bestStep` leaves the state unchanged when no considered run beats the
stored size. -/
theorem foldl_bestStep_no_update (a b : List Char) (i : Nat) (st : Nat × Nat × Nat) :
    ∀ js : List Nat, (∀ j ∈ js, runLen a b 0 0 i j ≤ st.2.2) →
      js.foldl (fun t j => bestStep a b 0 0 t (i, j)) st = st := by
  intro js
  induction js with
  | nil => intro _; rfl
  | cons j js ih =>
      intro h
      have hj := h j (by simp)
      have hstep : bestStep a b 0 0 st (i, j) = st := by
        unfold bestStep
        dsimp only
        rw [if_neg (by omega)]
      simp only [List.foldl_cons, hstep]
      exact ih (fun j' hj' => h j' (by simp [hj']))

/-- The stored block size never decreases along a `bestStep` fold. -/
theorem foldl_bestStep_size_mono (a b : List Char) (i : Nat) :
    ∀ (js : List Nat) (st : Nat × Nat × Nat),
      st.2.2 ≤ (js.foldl (fun t j => bestStep a b 0 0 t (i, j)) st).2.2 := by
  intro js
  induction js with
  | nil => intro st; exact le_refl _
  | cons j js ih =>
      intro st
      have h1 : st.2.2 ≤ (bestStep a b 0 0 st (i, j)).2.2 := by
        unfold bestStep
        dsimp only
        split
        · rename_i hk
          exact Nat.le_of_lt hk
        · exact le_refl _
      exact le_trans h1 (ih _)

/-- One row of the `find_longest_match` scan on equal strings preserves the
diagonal-block invariant. -/
theorem row_step_self (a : List Char) (n i : Nat) (hi : i < n) (st : Nat × Nat × Nat)
    (h1 : st.1 = st.2.1) (hb : st.1 + st.2.2 ≤ n)
    (hmax : ∀ q, q < i → runLen a a 0 0 q q ≤ st.2.2) :
    (((List.range' 0 n).foldl (fun t j => bestStep a a 0 0 t (i, j)) st).1 =
      ((List.range' 0 n).foldl (fun t j => bestStep a a 0 0 t (i, j)) st).2.1) ∧
    ((List.range' 0 n).foldl (fun t j => bestStep a a 0 0 t (i, j)) st).1 +
      ((List.range' 0 n).foldl (fun t j => bestStep a a 0 0 t (i, j)) st).2.2 ≤ n ∧
    (∀ q, q < i + 1 →
      runLen a a 0 0 q q ≤
        ((List.range' 0 n).foldl (fun t j => bestStep a a 0 0 t (i, j)) st).2.2) := by
  have hsplit : List.range' 0 n = List.range' 0 i ++ i :: List.range' (i + 1) (n - i - 1) := by
    have h2 : List.range' 0 i ++ List.range' i (n - i) = List.range' 0 n := by
      have := List.range'_append 0 i (n - i) 1
      simp only [one_mul, Nat.zero_add] at this
      rw [this]
      congr 1
      omega
    rw [← h2]
    congr 1
    have h3 : n - i = (n - i - 1) + 1 := by omega
    rw [h3]
    exact List.range'_succ i (n - i - 1) 1
  rw [hsplit, List.foldl_append]
  rw [foldl_bestStep_no_update a a i st (List.range' 0 i) (by
    intro j hj
    rw [List.mem_range'] at hj
    obtain ⟨t, ht, hjt⟩ := hj
    have hji : j < i := by omega
    exact le_trans (runLen_self_le_diag a i j) (hmax j hji))]
  simp only [List.foldl_cons]
  have hmid : ((bestStep a a 0 0 st (i, i)).1 = (bestStep a a 0 0 st (i, i)).2.1) ∧
      (bestStep a a 0 0 st (i, i)).1 + (bestStep a a 0 0 st (i, i)).2.2 ≤ n ∧
      runLen a a 0 0 i i ≤ (bestStep a a 0 0 st (i, i)).2.2 ∧
      st.2.2 ≤ (bestStep a a 0 0 st (i, i)).2.2 := by
    unfold bestStep
    dsimp only
    split
    · rename_i hk
      have hle := runLen_zz_le a a i i
      refine ⟨rfl, ?_, ?_, ?_⟩
      · show i + 1 - runLen a a 0 0 i i + runLen a a 0 0 i i ≤ n
        omega
      · show runLen a a 0 0 i i ≤ runLen a a 0 0 i i
        exact le_refl _
      · show st.2.2 ≤ runLen a a 0 0 i i
        omega
    · rename_i hk
      exact ⟨h1, hb, by omega, le_refl _⟩
  obtain ⟨hm1, hm2, hm3, hm4⟩ := hmid
  rw [foldl_bestStep_no_update a a i (bestStep a a 0 0 st (i, i)) (List.range' (i + 1) (n - i - 1)) (by
    intro j hj
    rw [List.mem_range'] at hj
    obtain ⟨t, ht, hjt⟩ := hj
    calc runLen a a 0 0 i j = runLen a a 0 0 j i := runLen_self_symm a i j
    _ ≤ runLen a a 0 0 i i := runLen_self_le_diag a j i
    _ ≤ _ := hm3)]
  refine ⟨hm1, hm2, ?_⟩
  intro q hq
  rcases Nat.lt_succ_iff_lt_or_eq.mp hq with hq' | hq'
  · exact le_trans (hmax q hq') hm4
  · subst hq'
    exact hm3

/-- After any number of rows of the scan on equal strings, the stored block
lies on the diagonal, fits in the window, and dominates all processed
diagonal runs. -/
theorem fold_rows_self (a : List Char) (n : Nat) :
    ∀ r, r ≤ n →
      (((List.range' 0 r).foldl
          (fun t i => (List.range' 0 n).foldl (fun t2 j => bestStep a a 0 0 t2 (i, j)) t)
          (0, 0, 0)).1 =
        ((List.range' 0 r).foldl
          (fun t i => (List.range' 0 n).foldl (fun t2 j => bestStep a a 0 0 t2 (i, j)) t)
          (0, 0, 0)).2.1) ∧
      ((List.range' 0 r).foldl
          (fun t i => (List.range' 0 n).foldl (fun t2 j => bestStep a a 0 0 t2 (i, j)) t)
          (0, 0, 0)).1 +
        ((List.range' 0 r).foldl
          (fun t i => (List.range' 0 n).foldl (fun t2 j => bestStep a a 0 0 t2 (i, j)) t)
          (0, 0, 0)).2.2 ≤ n := by
  intro r
  induction r with
  | zero => intro _; exact ⟨rfl, by simp⟩
  | succ r ih =>
      intro hr
      have hr' : r ≤ n := by omega
      obtain ⟨ih1, ih2⟩ := ih hr'
      have hstrong : ∀ r', r' ≤ n →
          (∀ q, q < r' →
            runLen a a 0 0 q q ≤
              ((List.range' 0 r').foldl
                (fun t i => (List.range' 0 n).foldl (fun t2 j => bestStep a a 0 0 t2 (i, j)) t)
                (0, 0, 0)).2.2) ∧
          (((List.range' 0 r').foldl
              (fun t i => (List.range' 0 n).foldl (fun t2 j => bestStep a a 0 0 t2 (i, j)) t)
              (0, 0, 0)).1 =
            ((List.range' 0 r').foldl
              (fun t i => (List.range' 0 n).foldl (fun t2 j => bestStep a a 0 0 t2 (i, j)) t)
              (0, 0, 0)).2.1) ∧
          ((List.range' 0 r').foldl
              (fun t i => (List.range' 0 n).foldl (fun t2 j => bestStep a a 0 0 t2 (i, j)) t)
              (0, 0, 0)).1 +
            ((List.range' 0 r').foldl
              (fun t i => (List.range' 0 n).foldl (fun t2 j => bestStep a a 0 0 t2 (i, j)) t)
              (0, 0, 0)).2.2 ≤ n := by
        intro r'
        induction r' with
        | zero => intro _; exact ⟨fun q hq => absurd hq (Nat.not_lt_zero q), rfl, by simp⟩
        | succ r' ih' =>
            intro hr''
            have hr''' : r' ≤ n := by omega
            obtain ⟨ihm, ihe, ihb⟩ := ih' hr'''
            rw [List.range'_1_concat, List.foldl_append]
            simp only [Nat.zero_add, List.foldl_cons, List.foldl_nil]
            have := row_step_self a n r' (by omega) _ ihe ihb ihm
            exact ⟨this.2.2, this.1, this.2.1⟩
      obtain ⟨-, he, hb⟩ := hstrong (r + 1) hr
      exact ⟨he, hb⟩

/-- On equal strings the backward extension drags a diagonal block to the
start of the window. -/
theorem extendBack_self (a : List Char) :
    ∀ d bs, d ≤ a.length → extendBack a a 0 0 d d bs = (0, 0, bs + d) := by
  intro d
  induction d with
  | zero => intro bs _; rfl
  | succ d ih =>
      intro bs hd
      have hchar : charEqOpt a d a d = true := by
        have hlt : d < a.length := by omega
        simp [charEqOpt, List.getElem?_eq_getElem hlt]
      rw [extendBack, if_pos (by simp [hchar])]
      have := ih (bs + 1) (by omega)
      simpa [Nat.add_assoc, Nat.add_comm, Nat.add_left_comm] using this

/-- On equal strings the forward extension grows a block anchored at 0 to
the whole window. -/
theorem extendFwd_self (a : List Char) :
    ∀ fuel m, m ≤ a.length → a.length - m ≤ fuel →
      extendFwd a a a.length a.length 0 0 fuel m = a.length := by
  intro fuel
  induction fuel with
  | zero =>
      intro m hm hf
      have hm2 : m = a.length := by omega
      subst hm2
      rfl
  | succ fuel ih =>
      intro m hm hf
      by_cases hlt : m < a.length
      · have hchar : charEqOpt a m a m = true := by
          simp [charEqOpt, List.getElem?_eq_getElem hlt]
        rw [extendFwd, if_pos (by simp [hchar, hlt])]
        have h2 : a.length - (m + 1) ≤ fuel := by omega
        exact ih (m + 1) hlt h2
      · have hm2 : m = a.length := by omega
        subst hm2
        rw [extendFwd, if_neg (by simp)]

/-- `find_longest_match` on two copies of the same string returns the whole
string as a single block. -/
theorem flm_self (a : List Char) : flm a a 0 a.length 0 a.length = (0, 0, a.length) := by
  have hfold : (lexPairs 0 a.length 0 a.length).foldl (bestStep a a 0 0) (0, 0, 0) =
      (List.range' 0 a.length).foldl
        (fun t i => (List.range' 0 a.length).foldl (fun t2 j => bestStep a a 0 0 t2 (i, j)) t)
        (0, 0, 0) := by
    unfold lexPairs
    rw [Nat.sub_zero, foldl_flatMap]
    congr 1
    funext t i
    rw [List.foldl_map]
  obtain ⟨he, hb⟩ := fold_rows_self a a.length a.length (le_refl _)
  rw [← hfold] at he hb
  unfold flm
  rcases hS : (lexPairs 0 a.length 0 a.length).foldl (bestStep a a 0 0) (0, 0, 0) with ⟨d, e, bs⟩
  rw [hS] at he hb
  dsimp only at he hb ⊢
  subst he
  rw [extendBack_self a d bs (by omega)]
  dsimp only
  rw [extendFwd_self a a.length (bs + d) (by omega) (by omega)]

/-- The total matched size of a string against itself is its length. -/
theorem matchesTotal_self (a : List Char) : matchesTotal a a = a.length := by
  unfold matchesTotal
  rw [matchesF, flm_self]
  dsimp only
  rcases Nat.eq_zero_or_pos a.length with h | h
  · rw [h]
    simp
  · rw [if_neg (by omega), if_neg (by simp), if_neg (by omega)]
    omega

/-- `difflib` ratio of a string with itself is 1. -/
theorem seq_ratio_self (s : String) : seq_ratio_val s s = 1 := by
  unfold seq_ratio_val
  rw [matchesTotal_self]
  by_cases h : s.data.length + s.data.length = 0
  · rw [if_pos h]
  · rw [if_neg h, Rat.mkRat_eq_div]
    push_cast
    rw [div_eq_one_iff_eq (by exact_mod_cast h)]
    ring

/-! ## Claim C5 — idempotence on clean input -/

/-- C5 (amended).  An AI sentence containing no `NUMERIC_RE` token and no
`YEAR_RE` year that exactly matches its best source candidate is returned
unchanged with no external request and no edit: the deterministic rule never
fires (no tokens), no span is detected, and the similarity to the best
candidate is 1, which is not below 0.75.  (The original claim, without the
no-span restriction, fails: see `c5_counterexample` — a clean numeric
sentence still issues a span-marked request.) -/
theorem c5_clean_amended (oracle : Nat → String → Option String) (src_sents : List String)
    (idx : Nat) (s : String)
    (h1 : numeric_tokens s = []) (h2 : year_search s = none)
    (h3 : (candidates_of s src_sents).head? = some s) :
    rectify_sentence oracle src_sents idx s = (s, 0, 0) := by
  obtain ⟨rest, hc⟩ : ∃ rest, candidates_of s src_sents = s :: rest := by
    cases hcs : candidates_of s src_sents with
    | nil => rw [hcs] at h3; simp at h3
    | cons c0 r =>
        rw [hcs] at h3
        simp only [List.head?_cons, Option.some_inj] at h3
        exact ⟨r, by rw [h3]⟩
  have hfix : first_numeric_fix s (candidates_of s src_sents) = none :=
    first_numeric_fix_no_tokens s h1 _
  have hns : numeric_search s = none := by
    unfold numeric_search
    have hfin : numeric_finditer s = [] := by
      have := h1
      unfold numeric_tokens at this
      exact List.map_eq_nil_iff.mp this
    rw [hfin]
    rfl
  unfold rectify_sentence
  rw [hfix, hns, hc]
  dsimp only
  rw [h2]
  dsimp only
  rw [if_neg (by rw [seq_ratio_self]; decide)]

/-- C5 witness: a clean non-numeric sentence matching its only source
sentence passes through with no request. -/
theorem c5_witness :
    rectify_sentence (fun _ _ => none) ["Cats sit on mats."] 0 "Cats sit on mats." =
      ("Cats sit on mats.", 0, 0) :=
  c5_clean_amended (fun _ _ => none) ["Cats sit on mats."] 0 "Cats sit on mats."
    (by decide) (by decide) (by decide)
